import Mathlib

/-!
Verification of the music-matching engine of this repository (text
normalization, two-stage string matching, bracket-content refinement)
against its natural-language specification.

Modelling conventions:
* Python floats are modelled as exact rationals (`Rat`); decimal literals
  such as `0.4` denote the exact rational 2/5.
* External libraries (fuzzywuzzy, OpenCC, pypinyin) are not code of this
  repository; their functions are abstract parameters, bundled in the
  structures `Fuzz` and `Ext`.  Concrete instantiations used in witnesses
  are noted where they are faithful to the real library on the inputs
  involved (e.g. OpenCC t2s is the identity on ASCII text and on CJK
  punctuation).
* Python dicts holding keyword weights are modelled as association lists
  in insertion order (`dictSet` overwrites in place, `dictAdd` appends a
  new binding only if the key is absent), matching CPython dict semantics.
* The few regular expressions the code uses are implemented directly as
  recursive scanners with the same semantics as the concrete pattern in
  question; each scanner documents the pattern it models.
-/

set_option maxRecDepth 8000

namespace MusicMove

/-- Characters matched by the Python regex class backslash-s on str (also the
set removed by str.strip): ASCII whitespace plus the common Unicode spaces. -/
def pyIsSpace (c : Char) : Bool :=
  let n := c.toNat
  n = 0x20 || n = 0x9 || n = 0xa || n = 0xd || n = 0xb || n = 0xc ||
  n = 0xa0 || n = 0x1680 || (0x2000 <= n && n <= 0x200a) ||
  n = 0x2028 || n = 0x2029 || n = 0x202f || n = 0x205f || n = 0x3000

/-- Python str.strip on a character list: drop whitespace from both ends. -/
def pyStripList (l : List Char) : List Char :=
  ((l.dropWhile pyIsSpace).reverse.dropWhile pyIsSpace).reverse

/-- Python str.strip at the String level. -/
def pyStrip (s : String) : String :=
  String.mk (pyStripList s.data)

/-- Helper for the Python substring test `sub in s` on character lists. -/
def strContainsAux (sub : List Char) : List Char → Bool
  | [] => sub.isEmpty
  | c :: rest => sub.isPrefixOf (c :: rest) || strContainsAux sub rest

/-- Python substring containment `sub in s`. -/
def strContains (sub s : String) : Bool :=
  strContainsAux sub.data s.data

/-- Python str.split(sep, 1) when sep occurs: the parts before and after the
first occurrence of sep.  Returns none when sep does not occur. -/
def splitFirstAux (sep : List Char) : List Char → Option (List Char × List Char)
  | [] => if sep.isEmpty then some ([], []) else none
  | c :: rest =>
    if sep.isPrefixOf (c :: rest) then some ([], (c :: rest).drop sep.length)
    else
      match splitFirstAux sep rest with
      | some (pre, post) => some (c :: pre, post)
      | none => none

/-- Python str.split(sep, 1) at the String level (first occurrence only). -/
def splitFirst (sep s : String) : Option (String × String) :=
  match splitFirstAux sep.data s.data with
  | some (pre, post) => some (String.mk pre, String.mk post)
  | none => none

/-- Python max over a list of rationals.  Python max raises on an empty list;
the code below only ever applies it to non-empty lists, where this model
agrees (the 0 default is never used there). -/
def pyMaxQ : List Rat → Rat
  | [] => 0
  | x :: xs => xs.foldl max x

/-- Python `lower()`, modelled per character: ASCII and full-width Latin
capitals are mapped to their lower-case forms, every other character is
unchanged.  These are the only cased characters the matcher's inputs
exercise through this path. -/
def pyLower (c : Char) : Char :=
  let n := c.toNat
  if (0x41 ≤ n && n ≤ 0x5a) || (0xff21 ≤ n && n ≤ 0xff3a) then
    Char.ofNat (n + 32)
  else c

/-- TextNormalizer.to_lowercase: text.lower(). -/
def to_lowercase (s : String) : String :=
  String.mk (s.data.map pyLower)

/-- Association-list lookup, modelling Python `d[k]` / `d.get(k)` on a dict
kept as an insertion-ordered list of bindings. -/
def dictLookup (d : List (String × Rat)) (k : String) : Option Rat :=
  match d.find? (fun p => p.1 == k) with
  | some p => some p.2
  | none => none

/-- Membership test for a key, modelling Python `k in d`. -/
def containsKey (d : List (String × Rat)) (k : String) : Bool :=
  (dictLookup d k).isSome

/-- Python `d[k] = v`: overwrite in place if the key exists (keeping its
position), otherwise append the new binding. -/
def dictSet (d : List (String × Rat)) (k : String) (v : Rat) : List (String × Rat) :=
  if containsKey d k then d.map (fun p => if p.1 == k then (k, v) else p)
  else d ++ [(k, v)]

/-- Python `if k not in d: d[k] = v`: append only if the key is absent. -/
def dictAdd (d : List (String × Rat)) (k : String) (v : Rat) : List (String × Rat) :=
  if containsKey d k then d else d ++ [(k, v)]

/-- Abstract interface to the fuzzywuzzy library (an external dependency of
the repository, not part of its code): the four similarity ratios used by
the matcher.  fuzzywuzzy returns integers in 0..100; the model allows any
rational so theorems hold for every possible library behaviour. -/
structure Fuzz where
  ratioScore : String → String → Rat
  partialRatioScore : String → String → Rat
  tokenSortScore : String → String → Rat
  tokenSetScore : String → String → Rat

/-- Abstract interface to the remaining external dependencies: OpenCC's t2s
conversion, pypinyin's lazy_pinyin, plus the two BracketMatcher methods
`extract_feat_artists` and `calculate_feat_artist_similarity`, which are
called at bracket_matcher.py lines 441-443 but are defined nowhere in the
repository (calling that path raises AttributeError in Python); they are
modelled as opaque parameters so the surrounding code can be stated. -/
structure Ext where
  openccT2S : String → String
  lazyPinyin : String → List String
  featNames : String → List String
  featSimilarity : List String → List String → Rat

/-- Concrete external-library instantiation used for witnesses and
counterexamples: conversion is the identity (faithful to OpenCC t2s on the
ASCII and CJK-punctuation inputs used there), pinyin is trivial, and the
undefined feat helpers return nothing. -/
def extId : Ext where
  openccT2S := id
  lazyPinyin := fun s => [s]
  featNames := fun _ => []
  featSimilarity := fun _ _ => 0

/-- Concrete fuzzywuzzy instantiation for witnesses: every ratio is 100 on
equal strings and 0 otherwise (the value fuzzywuzzy itself returns on equal
strings is also 100). -/
def fuzzEq : Fuzz where
  ratioScore := fun a b => if a = b then 100 else 0
  partialRatioScore := fun a b => if a = b then 100 else 0
  tokenSortScore := fun a b => if a = b then 100 else 0
  tokenSetScore := fun a b => if a = b then 100 else 0

/-- Traditional-to-Simplified character table zh_mapping from
TextNormalizer.to_simplified_chinese, in dict-literal order (duplicate keys
in the source literal collapse to a single binding, as in Python). -/
def zhMapping : List (Char × Char) := [
  (('愛'), ('爱')),
  (('風'), ('风')),
  (('華'), ('华')),
  (('時'), ('时')),
  (('樂'), ('乐')),
  (('東'), ('东')),
  (('來'), ('来')),
  (('過'), ('过')),
  (('說'), ('说')),
  (('實'), ('实')),
  (('現'), ('现')),
  (('點'), ('点')),
  (('開'), ('开')),
  (('後'), ('后')),
  (('樣'), ('样')),
  (('將'), ('将')),
  (('應'), ('应')),
  (('當'), ('当')),
  (('對'), ('对')),
  (('還'), ('还')),
  (('發'), ('发')),
  (('歲'), ('岁')),
  (('為'), ('为')),
  (('與'), ('与')),
  (('號'), ('号')),
  (('處'), ('处')),
  (('產'), ('产')),
  (('從'), ('从')),
  (('務'), ('务')),
  (('長'), ('长')),
  (('問'), ('问')),
  (('體'), ('体')),
  (('際'), ('际')),
  (('關'), ('关')),
  (('興'), ('兴')),
  (('讓'), ('让')),
  (('證'), ('证')),
  (('張'), ('张')),
  (('該'), ('该')),
  (('語'), ('语')),
  (('員'), ('员')),
  (('價'), ('价')),
  (('買'), ('买')),
  (('賣'), ('卖')),
  (('場'), ('场')),
  (('園'), ('园')),
  (('強'), ('强')),
  (('島'), ('岛')),
  (('數'), ('数')),
  (('幾'), ('几')),
  (('機'), ('机')),
  (('難'), ('难')),
  (('並'), ('并')),
  (('書'), ('书')),
  (('義'), ('义')),
  (('車'), ('车')),
  (('馬'), ('马')),
  (('學'), ('学')),
  (('總'), ('总')),
  (('條'), ('条')),
  (('雲'), ('云')),
  (('達'), ('达')),
  (('鐵'), ('铁')),
  (('熱'), ('热')),
  (('兒'), ('儿')),
  (('單'), ('单')),
  (('論'), ('论')),
  (('電'), ('电')),
  (('麗'), ('丽')),
  (('鄧'), ('邓')),
  (('錯'), ('错')),
  (('願'), ('愿')),
  (('頭'), ('头')),
  (('鳥'), ('鸟')),
  (('們'), ('们')),
  (('齊'), ('齐')),
  (('淚'), ('泪')),
  (('鳳'), ('凤')),
  (('傷'), ('伤')),
  (('鄉'), ('乡')),
  (('漢'), ('汉')),
  (('權'), ('权')),
  (('鬆'), ('松')),
  (('趙'), ('赵')),
  (('週'), ('周')),
  (('藝'), ('艺')),
  (('術'), ('术')),
  (('團'), ('团')),
  (('階'), ('阶')),
  (('歡'), ('欢')),
  (('灣'), ('湾')),
  (('國'), ('国')),
  (('髮'), ('发')),
  (('佈'), ('布')),
  (('轉'), ('转')),
  (('廣'), ('广')),
  (('連'), ('连')),
  (('麼'), ('么')),
  (('類'), ('类')),
  (('臺'), ('台')),
  (('黃'), ('黄')),
  (('萬'), ('万')),
  (('區'), ('区')),
  (('這'), ('这')),
  (('壓'), ('压')),
  (('響'), ('响')),
  (('紮'), ('扎')),
  (('傳'), ('传')),
  (('嘗'), ('尝')),
  (('準'), ('准')),
  (('醫'), ('医')),
  (('討'), ('讨')),
  (('禮'), ('礼')),
  (('訊'), ('讯')),
  (('遊'), ('游')),
  (('給'), ('给')),
  (('紅'), ('红')),
  (('則'), ('则')),
  (('約'), ('约')),
  (('隨'), ('随')),
  (('陽'), ('阳')),
  (('閃'), ('闪')),
  (('飛'), ('飞')),
  (('遠'), ('远')),
  (('舊'), ('旧')),
  (('係'), ('系')),
  (('維'), ('维')),
  (('創'), ('创')),
  (('預'), ('预')),
  (('顏'), ('颜')),
  (('館'), ('馆')),
  (('騰'), ('腾')),
  (('鮮'), ('鲜')),
  (('觀'), ('观')),
  (('壞'), ('坏')),
  (('師'), ('师')),
  (('圖'), ('图')),
  (('倆'), ('俩')),
  (('認'), ('认')),
  (('親'), ('亲')),
  (('請'), ('请')),
  (('題'), ('题')),
  (('養'), ('养')),
  (('樹'), ('树')),
  (('講'), ('讲')),
  (('許'), ('许')),
  (('設'), ('设')),
  (('訴'), ('诉')),
  (('課'), ('课')),
  (('誰'), ('谁')),
  (('調'), ('调')),
  (('誤'), ('误')),
  (('讀'), ('读')),
  (('貝'), ('贝')),
  (('貨'), ('货')),
  (('貢'), ('贡')),
  (('財'), ('财')),
  (('責'), ('责')),
  (('費'), ('费')),
  (('質'), ('质')),
  (('賞'), ('赏')),
  (('賦'), ('赋')),
  (('赤'), ('赤')),
  (('輔'), ('辅')),
  (('輕'), ('轻')),
  (('輩'), ('辈')),
  (('輸'), ('输')),
  (('轟'), ('轰')),
  (('辦'), ('办')),
  (('遇'), ('遇')),
  (('運'), ('运')),
  (('違'), ('违')),
  (('進'), ('进')),
  (('遲'), ('迟')),
  (('遷'), ('迁')),
  (('選'), ('选')),
  (('遺'), ('遗')),
  (('遼'), ('辽')),
  (('鄰'), ('邻')),
  (('酬'), ('酬')),
  (('裏'), ('里')),
  (('變'), ('变'))]

/-- TextNormalizer.to_simplified_chinese: sequential text.replace over the
zh_mapping items (keys and values are single characters, so each replace is
a per-character substitution over the whole string), then the OpenCC t2s
conversion.  Empty input returns immediately without conversion. -/
def to_simplified_chinese (ext : Ext) (s : String) : String :=
  if s = "" then s
  else ext.openccT2S (String.mk (zhMapping.foldl
    (fun acc p => acc.map (fun c => if c = p.1 then p.2 else c)) s.data))

/-- Per-character full-width folding: code points U+FF01..U+FF5E map to
code - 0xFF01 + 0x21, as in TextNormalizer.normalize_fullwidth. -/
def fullwidthFold (c : Char) : Char :=
  let n := c.toNat
  if 0xff01 <= n && n <= 0xff5e then Char.ofNat (n - 0xff01 + 0x21) else c

/-- TextNormalizer.normalize_fullwidth. -/
def normalize_fullwidth (s : String) : String :=
  String.mk (s.data.map fullwidthFold)

/-- Scanner for re.sub of a run pattern X{2,} with X one literal character:
each maximal run of two or more occurrences of the character is replaced by
three ASCII dots (the replacement string "..." used at both call sites);
runs of length one are kept.  The counter is the length of the pending run. -/
def collapseRunsGo (c : Char) : Nat → List Char → List Char
  | n, [] => if 2 <= n then [('.'), ('.'), ('.')] else List.replicate n c
  | n, x :: xs =>
    if x = c then collapseRunsGo c (n + 1) xs
    else
      (if 2 <= n then [('.'), ('.'), ('.')] else List.replicate n c)
        ++ x :: collapseRunsGo c 0 xs

/-- Entry point of the run-collapsing scanner. -/
def collapseRuns (c : Char) (l : List Char) : List Char :=
  collapseRunsGo c 0 l

/-- Hyphen variants folded to "-" by TextNormalizer.normalize_separators
(the character class U+2010..U+2015 in the source regex). -/
def hyphenVariants : List Char :=
  [Char.ofNat 0x2010, Char.ofNat 0x2011, Char.ofNat 0x2012,
   Char.ofNat 0x2013, Char.ofNat 0x2014, Char.ofNat 0x2015]

/-- TextNormalizer.normalize_separators: hyphen variants to "-", full-width
slash U+FF0F to "/", full-width ampersand U+FF06 to "&", then runs of two or
more "." and runs of two or more U+3002 each become "...", in that order. -/
def normalize_separators (s : String) : String :=
  let t1 := s.data.map (fun c => if hyphenVariants.contains c then ('-') else c)
  let t2 := t1.map (fun c => if c.toNat = 0xff0f then ('/') else c)
  let t3 := t2.map (fun c => if c.toNat = 0xff06 then ('&') else c)
  let t4 := collapseRuns ('.') t3
  let t5 := collapseRuns (Char.ofNat 0x3002) t4
  String.mk t5

/-- Scanner for re.sub of a whitespace-run pattern: each maximal run of
whitespace characters becomes one ASCII space.  The flag records whether a
run is pending. -/
def collapseWsGo : Bool → List Char → List Char
  | pending, [] => if pending then [(' ')] else []
  | pending, x :: xs =>
    if pyIsSpace x then collapseWsGo true xs
    else if pending then (' ') :: x :: collapseWsGo false xs
    else x :: collapseWsGo false xs

/-- Entry point of the whitespace-collapsing scanner. -/
def collapseWs (l : List Char) : List Char :=
  collapseWsGo false l

/-- TextNormalizer.normalize_whitespace: strip both ends, then collapse each
internal whitespace run to a single space. -/
def normalize_whitespace (s : String) : String :=
  String.mk (collapseWs (pyStripList s.data))

/-- Closing character for each of the four bracket openers used by both the
"brackets" removal pattern and BRACKET_PATTERN: ( ), [ ], U+FF08 U+FF09,
U+3010 U+3011. -/
def bracketCloser? (c : Char) : Option Char :=
  if c = ('(') then some (')')
  else if c = ('[') then some (']')
  else if c.toNat = 0xff08 then some (Char.ofNat 0xff09)
  else if c.toNat = 0x3010 then some (Char.ofNat 0x3011)
  else none

/-- Scanner for one branch of the non-greedy removal pattern: the opener has
been consumed, the lazy dot may cross any character except a newline, and
the match ends at the first closer.  Returns the remainder after the closer,
or none when the branch cannot match at this position. -/
def scanCloseSkipNl (close : Char) : List Char → Option (List Char)
  | [] => none
  | c :: rest =>
    if c = close then some rest
    else if c = ('\n') then none
    else scanCloseSkipNl close rest

/-- Left-to-right re.sub of the DEFAULT_PATTERNS "brackets" regex with the
empty replacement: at each position a bracket opener with a reachable closer
consumes the whole span; otherwise the engine advances one character.  Fuel
bounds the scan by the input length to keep the definition structural. -/
def removeBracketsAux : Nat → List Char → List Char
  | 0, l => l
  | _ + 1, [] => []
  | fuel + 1, c :: rest =>
    match bracketCloser? c with
    | some close =>
      match scanCloseSkipNl close rest with
      | some rem => removeBracketsAux fuel rem
      | none => c :: removeBracketsAux fuel rest
    | none => c :: removeBracketsAux fuel rest

/-- TextNormalizer.remove_patterns with pattern list ["brackets"]: the regex
substitution, then whitespace-run collapsing, then strip. -/
def remove_patterns_brackets (s : String) : String :=
  String.mk (pyStripList (collapseWs (removeBracketsAux (s.data.length + 1) s.data)))

/-- TextNormalizer.normalize for the two configurations the matcher uses:
default options, or remove_patterns=["brackets"].  The preserve_brackets and
replacements options are never passed by the code under verification.
Pipeline order follows the source: lower-case, full-width fold, script fold,
separator fold, optional bracket removal, whitespace fold; empty input
short-circuits to "". -/
def normalize (ext : Ext) (removeBrackets : Bool) (s : String) : String :=
  if s = "" then ""
  else
    let t1 := to_lowercase s
    let t2 := normalize_fullwidth t1
    let t3 := to_simplified_chinese ext t2
    let t4 := normalize_separators t3
    let t5 := if removeBrackets then remove_patterns_brackets t4 else t4
    normalize_whitespace t5

/-- Module-level normalize_text: a pure cache in front of
TextNormalizer.normalize, semantically the same function (a None input also
yields ""). -/
def normalize_text (ext : Ext) (removeBrackets : Bool) (s : String) : String :=
  normalize ext removeBrackets s

/-- Scanner for one capture group of BRACKET_PATTERN: the content class
excludes only the closer (newlines are allowed), so the group captures
everything up to the first closer; none when no closer follows. -/
def scanClose (close : Char) : List Char → Option (List Char × List Char)
  | [] => none
  | c :: rest =>
    if c = close then some ([], rest)
    else
      match scanClose close rest with
      | some (content, rem) => some (c :: content, rem)
      | none => none

/-- Left-to-right BRACKET_PATTERN.findall: at each position try the four
bracket branches; on success capture the content and resume after the
closer, otherwise advance one character.  Fuel as in removeBracketsAux. -/
def findBracketsAux : Nat → List Char → List (List Char)
  | 0, _ => []
  | _ + 1, [] => []
  | fuel + 1, c :: rest =>
    match bracketCloser? c with
    | some close =>
      match scanClose close rest with
      | some (content, rem) => content :: findBracketsAux fuel rem
      | none => findBracketsAux fuel rest
    | none => findBracketsAux fuel rest

/-- BracketMatcher.extract_brackets: every captured bracket content whose
stripped text is non-empty, in order of occurrence; empty input gives []. -/
def extract_brackets (s : String) : List String :=
  if s = "" then []
  else
    (findBracketsAux (s.data.length + 1) s.data).filterMap (fun content =>
      if pyStripList content = [] then none else some (String.mk content))

/-- BracketMatcher.normalize_bracket_content: normalize_text with default
options, then collapse whitespace runs and strip (the try/except wrapper in
the source only guards against library failures, which the model has none
of). -/
def normalize_bracket_content (ext : Ext) (s : String) : String :=
  String.mk (pyStripList (collapseWs (normalize_text ext false s).data))

/-- Per-matcher configuration of BracketMatcher: bracket weight, keyword
bonus and bracket threshold (defaults 0.3, 5.0, 70.0). -/
structure BMcfg where
  bracket_weight : Rat
  keyword_bonus : Rat
  threshold : Rat
deriving DecidableEq

/-- BracketMatcher defaults: bracket_weight 0.3, keyword_bonus 5.0,
threshold 70.0. -/
def default_bracket_cfg : BMcfg :=
  { bracket_weight := 0.3, keyword_bonus := 5, threshold := 70 }

/-- Keyword weight dict self.keywords of BracketMatcher, in source order. -/
def keywordTable : List (String × Rat) := [
  (("live"), (6 : Rat)),
  (("现场"), (6 : Rat)),
  (("現場"), (6 : Rat)),
  (("现场版"), (6 : Rat)),
  (("現場版"), (6 : Rat)),
  (("acoustic"), (6 : Rat)),
  (("原声"), (6 : Rat)),
  (("原聲"), (6 : Rat)),
  (("remix"), (8 : Rat)),
  (("重混"), (8 : Rat)),
  (("重混版"), (8 : Rat)),
  (("piano"), (5 : Rat)),
  (("钢琴"), (5 : Rat)),
  (("鋼琴"), (5 : Rat)),
  (("instrumental"), (7 : Rat)),
  (("器乐"), (7 : Rat)),
  (("器樂"), (7 : Rat)),
  (("karaoke"), (7 : Rat)),
  (("卡拉OK"), (7 : Rat)),
  (("cover"), (4 : Rat)),
  (("翻唱"), (4 : Rat)),
  (("翻唱版"), (4 : Rat)),
  (("version"), (2 : Rat)),
  (("版"), (2 : Rat)),
  (("版本"), (2 : Rat)),
  (("remaster"), (3 : Rat)),
  (("remastered"), (3 : Rat)),
  (("重制"), (3 : Rat)),
  (("重制版"), (3 : Rat)),
  (("deluxe"), (2 : Rat)),
  (("豪华"), (2 : Rat)),
  (("豪华版"), (2 : Rat)),
  (("single"), (3 : Rat)),
  (("单曲"), (3 : Rat)),
  (("單曲"), (3 : Rat)),
  (("album"), (2 : Rat)),
  (("专辑"), (2 : Rat)),
  (("專輯"), (2 : Rat)),
  (("ep"), (2 : Rat)),
  (("original"), (2 : Rat)),
  (("原版"), (2 : Rat)),
  (("feat"), (5 : Rat)),
  (("featuring"), (5 : Rat)),
  (("ft"), (5 : Rat)),
  (("合作"), (5 : Rat)),
  (("合作版"), (5 : Rat)),
  (("extended"), (2 : Rat)),
  (("加长"), (2 : Rat)),
  (("加长版"), (2 : Rat)),
  (("edit"), (1 : Rat)),
  (("编辑"), (1 : Rat)),
  (("編輯"), (1 : Rat)),
  (("radio"), (1.5 : Rat)),
  (("广播"), (1.5 : Rat)),
  (("廣播"), (1.5 : Rat)),
  (("电台"), (1.5 : Rat)),
  (("電臺"), (1.5 : Rat)),
  (("explicit"), (1 : Rat)),
  (("clean"), (1 : Rat)),
  (("bonus"), (1 : Rat)),
  (("track"), (1 : Rat))]

/-- Synonym map self.keyword_mappings of BracketMatcher. -/
def keywordMappings : List (String × List String) := [
  (("live"), [("现场"), ("演唱会"), ("音乐会"), ("concert"), ("live"), ("live version"), ("live recording"), ("在线"), ("現場")]),
  (("remix"), [("remix"), ("mix"), ("重混"), ("重制"), ("混音"), ("dj"), ("club"), ("extended")]),
  (("acoustic"), [("acoustic"), ("原声"), ("原聲"), ("钢琴"), ("吉他"), ("unplugged"), ("piano"), ("guitar")]),
  (("remaster"), [("remaster"), ("remastered"), ("重制"), ("修复"), ("高清"), ("hd"), ("高音质")]),
  (("version"), [("version"), ("版本"), ("版"), ("ver"), ("mix")]),
  (("feat"), [("feat"), ("ft"), ("featuring"), ("with"), ("和"), ("合作"), ("協作")]),
  (("alias"), [("又名"), ("别名"), ("aka"), ("also known as"), ("原名"), ("原名为"), ("原名是")])]

/-- Importance weights self.bracket_type_weights of BracketMatcher. -/
def bracketTypeWeights : List (String × Rat) := [
  (("feat"), (0.9 : Rat)),
  (("remix"), (0.85 : Rat)),
  (("live"), (0.80 : Rat)),
  (("acoustic"), (0.75 : Rat)),
  (("version"), (0.70 : Rat)),
  (("alias"), (0.60 : Rat)),
  (("remaster"), (0.40 : Rat)),
  (("release"), (0.35 : Rat)),
  (("year"), (0.30 : Rat)),
  (("other"), (0.40 : Rat))]

/-- Lookup in bracket_type_weights with the source's 0.4 default. -/
def bracket_type_weightD (t : String) : Rat :=
  (dictLookup bracketTypeWeights t).getD 0.4

/-- BracketMatcher.detect_keywords (bracket_matcher.py 267-297): for each
bracket content, normalize and lower-case it, then record every table
keyword whose lowered text occurs in it (dict write semantics; repeated
detection rewrites the same weight). -/
def detect_keywords (ext : Ext) (bracket_contents : List String) : List (String × Rat) :=
  bracket_contents.foldl (fun d content =>
    let normalized := to_lowercase (normalize_bracket_content ext content)
    keywordTable.foldl (fun d kw =>
      if strContains (to_lowercase kw.1) normalized then dictSet d kw.1 kw.2 else d) d) []

/-- Synonym expansion inside calculate_keyword_bonus: every detected keyword
is written into the extended dict, and when it has a row in the synonym map
each variant is appended with the same weight unless already present. -/
def extend_keywords (base : List (String × Rat)) : List (String × Rat) :=
  base.foldl (fun d kw =>
    let d1 := dictSet d kw.1 kw.2
    match keywordMappings.find? (fun p => p.1 == kw.1) with
    | some p => p.2.foldl (fun d v => dictAdd d v kw.2) d1
    | none => d1) []

/-- BracketMatcher.calculate_keyword_bonus (bracket_matcher.py 496-555):
detect keywords on both sides, return 0 when either side has none, else
extend both sides with synonyms and add min(input weight, candidate weight)
times the configured keyword_bonus for every extended input key that is
also an extended candidate key. -/
def calculate_keyword_bonus (ext : Ext) (keyword_bonus : Rat)
    (input_brackets candidate_brackets : List String) : Rat :=
  let input_keywords := detect_keywords ext input_brackets
  let candidate_keywords := detect_keywords ext candidate_brackets
  if input_keywords = [] ∨ candidate_keywords = [] then 0
  else
    let extended_input := extend_keywords input_keywords
    let extended_candidate := extend_keywords candidate_keywords
    extended_input.foldl (fun bonus kw =>
      match dictLookup extended_candidate kw.1 with
      | some w => bonus + min kw.2 w * keyword_bonus
      | none => bonus) 0

/-- Declarative form of the bonus the code computes: a sum with one term per
synonym-extended query keyword that also occurs among the synonym-extended
candidate keywords. -/
def keyword_bonus_extended_sum (ext : Ext) (kb : Rat)
    (input_brackets candidate_brackets : List String) : Rat :=
  let input_keywords := detect_keywords ext input_brackets
  let candidate_keywords := detect_keywords ext candidate_brackets
  if input_keywords = [] ∨ candidate_keywords = [] then 0
  else
    let extended_candidate := extend_keywords candidate_keywords
    ((extend_keywords input_keywords).map (fun kw =>
      match dictLookup extended_candidate kw.1 with
      | some w => min kw.2 w * kb
      | none => 0)).sum

/-- Modelled from the claim's words (C2): one bonus term per detected query
keyword present among the candidate keywords directly or via the synonym
map, each worth min(query weight, candidate weight) times the configured
bonus value. -/
def keyword_bonus_per_query_keyword (ext : Ext) (kb : Rat)
    (input_brackets candidate_brackets : List String) : Rat :=
  let extended_candidate := extend_keywords (detect_keywords ext candidate_brackets)
  ((detect_keywords ext input_brackets).map (fun kw =>
    match dictLookup extended_candidate kw.1 with
    | some w => min kw.2 w * kb
    | none => 0)).sum

/-- BracketMatcher.calculate_final_score (bracket_matcher.py 557-592): the
bracket score contributes bracket_score * bracket_weight only when it
reaches the threshold, and the total is clamped to 100 on return. -/
def calculate_final_score (cfg : BMcfg)
    (base_score bracket_score keyword_bonus : Rat) : Rat :=
  let bracket_contribution :=
    if cfg.threshold ≤ bracket_score then bracket_score * cfg.bracket_weight else 0
  min (base_score + bracket_contribution + keyword_bonus) 100

/-- Word characters for the Python word boundary in the year regex: ASCII
alphanumerics, underscore, and CJK ideographs (Python backslash-w on str
covers Unicode word characters). -/
def isWordChar (c : Char) : Bool :=
  c.isAlphanum || c = ('_') || (0x4e00 <= c.toNat && c.toNat <= 0x9fff)

/-- Scanner for re.search of the year pattern (word boundary, 19 or 20, two
digits, word boundary): some position starts such a group.  prev is the
character just before the current position; digits are modelled as ASCII
digits. -/
def hasYearAux (prev : Option Char) : List Char → Bool
  | c1 :: c2 :: c3 :: c4 :: rest =>
    ((match prev with | some p => !(isWordChar p) | none => true)
        && ((c1 = ('1') && c2 = ('9')) || (c1 = ('2') && c2 = ('0')))
        && c3.isDigit && c4.isDigit
        && (match rest with | [] => true | r :: _ => !(isWordChar r)))
      || hasYearAux (some c1) (c2 :: c3 :: c4 :: rest)
  | _ => false

/-- Entry point of the year scanner. -/
def hasYear (s : String) : Bool :=
  hasYearAux none s.data

/-- BracketMatcher.classify_bracket_type (bracket_matcher.py 633-681):
keyword-family containment checks in source order on the lowered content,
then the year pattern, else other. -/
def classify_bracket_type (bracket_content : String) : String :=
  if bracket_content = "" then ("other")
  else
    let content := to_lowercase bracket_content
    if [("feat"), ("ft"), ("featuring"), ("with")].any (fun k => strContains k content) then ("feat")
    else if [("remix"), ("mix"), ("dj"), ("club"), ("extended")].any (fun k => strContains k content) then ("remix")
    else if [("live"), ("现场"), ("演唱会"), ("concert")].any (fun k => strContains k content) then ("live")
    else if [("acoustic"), ("原声"), ("钢琴"), ("吉他"), ("piano"), ("guitar")].any (fun k => strContains k content) then ("acoustic")
    else if [("remaster"), ("重制"), ("修复"), ("高清"), ("hd")].any (fun k => strContains k content) then ("remaster")
    else if [("version"), ("版本"), ("ver"), ("special"), ("deluxe")].any (fun k => strContains k content) then ("version")
    else if [("又名"), ("别名"), ("aka"), ("also known as"), ("原名")].any (fun k => strContains k content) then ("alias")
    else if hasYear content then ("year")
    else ("other")

/-- Alias text after a separator: parts[1].strip() of split(sep, 1); only
evaluated when the separator occurs in the content. -/
def alias_after (content sep : String) : String :=
  match splitFirst sep content with
  | some pq => pyStrip pq.2
  | none => ""

/-- BracketMatcher.extract_alias (bracket_matcher.py 218-265): normalize the
content, scan the Chinese indicator list and then the English one, and
return the stripped text after the first indicator found (colon form first,
then space form, then bare).  none when no indicator occurs. -/
def extract_alias (ext : Ext) (bracket_content : String) : Option String :=
  let content := normalize_bracket_content ext bracket_content
  match [("又名"), ("别名"), ("别称"), ("原名")].find? (fun ind => strContains ind content) with
  | some ind =>
    if strContains (ind ++ (":")) content then some (alias_after content (ind ++ (":")))
    else if strContains (ind ++ (" ")) content then some (alias_after content (ind ++ (" ")))
    else some (alias_after content ind)
  | none =>
    match [("aka"), ("also known as"), ("alternate title"), ("original")].find? (fun ind => strContains ind content) with
    | some ind => some (alias_after content ind)
    | none => none

/-- Truthiness filter applied at the call sites `if alias:` in
calculate_bracket_similarity: a missing alias and an empty alias both count
as absent. -/
def truthy_alias (ext : Ext) (bracket_content : String) : Option String :=
  match extract_alias ext bracket_content with
  | some a => if a = "" then none else some a
  | none => none

/-- BracketMatcher.calculate_bracket_similarity (bracket_matcher.py
299-494).  Both sides empty: 100.  One side empty: 75 plus (1 - average
importance) * 25 over the classified types of the non-empty side.  Both
non-empty: for every non-blank normalized input bracket take its best
candidate score (maximum of three fuzz ratios, +10 for equal types, alias
and feat re-scoring blended 30/70 - the feat helpers are the undefined
methods modelled in Ext), keep positive best scores paired with the input
bracket's importance, and return their importance-weighted average, or 70
when no pair scored. -/
def calculate_bracket_similarity (f : Fuzz) (ext : Ext)
    (input_brackets candidate_brackets : List String) : Rat :=
  if input_brackets = [] ∧ candidate_brackets = [] then 100
  else if input_brackets = [] ∨ candidate_brackets = [] then
    let brackets_to_analyze := if input_brackets ≠ [] then input_brackets else candidate_brackets
    let bracket_types := brackets_to_analyze.map classify_bracket_type
    let importance_weights := bracket_types.map bracket_type_weightD
    let avg_importance :=
      if importance_weights = [] then 0.4
      else importance_weights.sum / (importance_weights.length : Rat)
    75 + (1 - avg_importance) * 25
  else
    let normalized_inputs := input_brackets.map (normalize_bracket_content ext)
    let normalized_candidates := candidate_brackets.map (normalize_bracket_content ext)
    let input_aliases := input_brackets.enum.filterMap (fun p =>
      (truthy_alias ext p.2).map (fun a => (p.1, a)))
    let candidate_aliases := candidate_brackets.enum.filterMap (fun p =>
      (truthy_alias ext p.2).map (fun a => (p.1, a)))
    let overall_scores := normalized_inputs.enum.filterMap (fun ip =>
      let i := ip.1
      let input_bracket := ip.2
      if pyStripList input_bracket.data = [] then none
      else
        let input_type := classify_bracket_type input_bracket
        let input_importance := bracket_type_weightD input_type
        let best_score := normalized_candidates.enum.foldl (fun best jp =>
          let j := jp.1
          let candidate := jp.2
          if pyStripList candidate.data = [] then best
          else
            let candidate_type := classify_bracket_type candidate
            let score0 := max (max (f.tokenSetScore input_bracket candidate)
                (f.ratioScore input_bracket candidate))
              (f.partialRatioScore input_bracket candidate)
            let score1 := if input_type = candidate_type then score0 + 10 else score0
            let score2 :=
              match input_aliases.find? (fun q => q.1 == i),
                    candidate_aliases.find? (fun q => q.1 == j) with
              | some ia, some ca =>
                let alias_score := f.tokenSetScore ia.2 ca.2
                if 70 < alias_score then score1 * 0.3 + alias_score * 0.7 else score1
              | _, _ => score1
            let score3 :=
              if input_type = ("feat") ∧ candidate_type = ("feat") then
                let feat_score := ext.featSimilarity
                  (ext.featNames (input_brackets.getD i ("")))
                  (ext.featNames (candidate_brackets.getD j ("")))
                if 0 < feat_score then score2 * 0.3 + feat_score * 0.7 else score2
              else score2
            if best < score3 then score3 else best) 0
        if 0 < best_score then some (best_score, input_importance) else none)
    if overall_scores = [] then 70
    else
      (overall_scores.map (fun p => p.1 * p.2)).sum /
        (overall_scores.map (fun p => p.2)).sum

/-- BracketMatcher.match (bracket_matcher.py 594-631): no brackets on either
side keeps the base score unchanged; otherwise combine bracket similarity
and keyword bonus through calculate_final_score. -/
def bracket_match (f : Fuzz) (ext : Ext) (cfg : BMcfg)
    (input_title candidate_title : String) (base_score : Rat) : Rat :=
  let input_brackets := extract_brackets input_title
  let candidate_brackets := extract_brackets candidate_title
  if input_brackets = [] ∧ candidate_brackets = [] then base_score
  else
    let bracket_score := calculate_bracket_similarity f ext input_brackets candidate_brackets
    let keyword_bonus := calculate_keyword_bonus ext cfg.keyword_bonus input_brackets candidate_brackets
    calculate_final_score cfg base_score bracket_score keyword_bonus

/-- Candidate track as consumed by the matcher: the name field and the
artist names of the search payload (no other payload field influences
matching). -/
structure Cand where
  name : String
  artists : List String
deriving DecidableEq

/-- The similarity_scores dict attached to a match: the three stage-1 keys
are always present; final_score, is_low_confidence and original_score are
written later by stage 2 and by get_enhanced_match, so they are optional. -/
structure Scores where
  title_score : Rat
  artist_score : Rat
  weighted_score : Rat
  final_score : Option Rat := none
  is_low_confidence : Option Bool := none
  original_score : Option Rat := none
deriving DecidableEq

/-- A candidate copy together with its similarity_scores, as returned by the
matchers. -/
structure Track where
  cand : Cand
  scores : Scores
deriving DecidableEq

/-- StringMatcher configuration: weights, threshold, top_k (a Python int,
possibly non-positive, hence an integer here). -/
structure SM where
  title_weight : Rat
  artist_weight : Rat
  threshold : Rat
  top_k : Int
deriving DecidableEq

/-- The two ValueError cases StringMatcher.__init__ can raise. -/
inductive ConfigError where
  | weightOutOfRange
  | weightSumInvalid
deriving DecidableEq

/-- StringMatcher.__init__ (string_matcher.py 31-54): each weight must lie in
[0,1] and the weights must sum to 1 within the 0.001 float tolerance,
otherwise a ValueError is raised (modelled by the ConfigError values). -/
def mkStringMatcher (title_weight artist_weight threshold : Rat) (top_k : Int) :
    Except ConfigError SM :=
  if ¬ (0 ≤ title_weight ∧ title_weight ≤ 1) ∨ ¬ (0 ≤ artist_weight ∧ artist_weight ≤ 1) then
    Except.error ConfigError.weightOutOfRange
  else if 0.001 < |title_weight + artist_weight - 1| then
    Except.error ConfigError.weightSumInvalid
  else
    Except.ok { title_weight := title_weight, artist_weight := artist_weight,
                threshold := threshold, top_k := top_k }

/-- StringMatcher.normalize_for_matching: normalize_text with
remove_patterns=["brackets"]. -/
def normalize_for_matching (ext : Ext) (text : String) : String :=
  normalize_text ext true text

/-- StringMatcher.calculate_title_similarity (string_matcher.py 72-109):
0.4 ratio + 0.4 partial ratio + 0.2 token-sort ratio over the
bracket-stripped normalized titles. -/
def calculate_title_similarity (f : Fuzz) (ext : Ext)
    (input_title candidate_title : String) : Rat :=
  let norm_input := normalize_for_matching ext input_title
  let norm_candidate := normalize_for_matching ext candidate_title
  f.ratioScore norm_input norm_candidate * 0.4 +
    f.partialRatioScore norm_input norm_candidate * 0.4 +
    f.tokenSortScore norm_input norm_candidate * 0.2

/-- StringMatcher.contains_chinese: some character lies in U+4E00..U+9FFF. -/
def contains_chinese (text : String) : Bool :=
  text.data.any (fun c => 0x4e00 <= c.toNat && c.toNat <= 0x9fff)

/-- StringMatcher.get_pinyin: space-joined pypinyin lazy_pinyin (the
ImportError and exception fallbacks of the source return the input text, a
behaviour obtained here by instantiating Ext accordingly). -/
def get_pinyin (ext : Ext) (text : String) : String :=
  String.intercalate (" ") (ext.lazyPinyin text)

/-- StringMatcher.calculate_artists_similarity (string_matcher.py 145-236).
Both lists empty: 100.  Exactly one empty: 0.  Otherwise, when the first
input artist reaches a token-set ratio of at least 90 against some candidate
artist, return max 85 of that best ratio; otherwise average each input
artist's best candidate ratio, and when that average is below 60 and the
joined text contains Chinese, recompute the average over pinyin
transliterations and keep the larger value. -/
def calculate_artists_similarity (f : Fuzz) (ext : Ext)
    (input_artists candidate_artists : List String) : Rat :=
  if input_artists = [] ∧ candidate_artists = [] then 100
  else if input_artists = [] ∨ candidate_artists = [] then 0
  else
    let main_check : Option Rat :=
      if input_artists ≠ [] then
        let main_artist := input_artists.headD ("")
        let main_artist_highest_match :=
          pyMaxQ (candidate_artists.map (fun c => f.tokenSetScore main_artist c))
        if 90 ≤ main_artist_highest_match then some (max 85 main_artist_highest_match)
        else none
      else none
    match main_check with
    | some v => v
    | none =>
      let best_matches := input_artists.map (fun a =>
        pyMaxQ (candidate_artists.map (fun c => f.tokenSetScore a c)))
      let avg_match :=
        if best_matches = [] then 0 else best_matches.sum / (best_matches.length : Rat)
      if avg_match < 60 ∧ contains_chinese (String.join (input_artists ++ candidate_artists)) then
        let input_pinyin := input_artists.map (fun a =>
          if contains_chinese a then get_pinyin ext a else a)
        let candidate_pinyin := candidate_artists.map (fun a =>
          if contains_chinese a then get_pinyin ext a else a)
        let pinyin_best := input_pinyin.map (fun a =>
          pyMaxQ (candidate_pinyin.map (fun c => f.tokenSetScore a c)))
        let pinyin_avg :=
          if pinyin_best = [] then 0 else pinyin_best.sum / (pinyin_best.length : Rat)
        if avg_match < pinyin_avg then pinyin_avg else avg_match
      else avg_match

/-- StringMatcher.calculate_weighted_score. -/
def calculate_weighted_score (m : SM) (title_score artist_score : Rat) : Rat :=
  m.title_weight * title_score + m.artist_weight * artist_score

/-- StringMatcher.calculate_similarity (string_matcher.py 368-395): the
stage-1 score dict for one candidate. -/
def calculate_similarity (f : Fuzz) (ext : Ext) (m : SM)
    (input_title : String) (input_artists : List String) (candidate : Cand) : Scores :=
  let title_score := calculate_title_similarity f ext input_title candidate.name
  let artist_score := calculate_artists_similarity f ext input_artists candidate.artists
  { title_score := title_score, artist_score := artist_score,
    weighted_score := calculate_weighted_score m title_score artist_score }

/-- StringMatcher._quick_check (string_matcher.py 264-315): reject when the
lower-cased title lengths differ by more than half the lower-cased input
title length, or, when both artist lists are non-empty, when no lower-cased
artist pair is in a substring relation. -/
def quick_check (input_title : String) (input_artists : List String) (candidate : Cand) : Bool :=
  let input_title_lower := to_lowercase input_title
  let candidate_title_lower := to_lowercase candidate.name
  if |(input_title_lower.length : Rat) - (candidate_title_lower.length : Rat)| >
      (input_title_lower.length : Rat) * 0.5 then false
  else if input_artists ≠ [] ∧ candidate.artists ≠ [] then
    let input_artists_lower := input_artists.map to_lowercase
    let candidate_artists_lower := candidate.artists.map to_lowercase
    input_artists_lower.any (fun a =>
      candidate_artists_lower.any (fun b => strContains a b || strContains b a))
  else true

/-- Stable descending insertion, modelling Python's stable list.sort with
reverse=True: an element is placed before the first entry whose key is not
larger, so earlier elements keep their relative order on equal keys. -/
def insertDesc (key : Track → Rat) (t : Track) : List Track → List Track
  | [] => [t]
  | x :: xs => if key x ≤ key t then t :: x :: xs else x :: insertDesc key t xs

/-- Stable descending sort by a rational key. -/
def sortDesc (key : Track → Rat) (l : List Track) : List Track :=
  l.foldr (insertDesc key) []

/-- StringMatcher.match (string_matcher.py 317-366): an empty candidate list
returns []; otherwise quick-checked candidates are scored, kept when their
weighted score reaches the threshold (the source loop with append is a
filterMap), sorted by descending weighted score, and cut to the first top_k
when top_k > 0 and more matches remain. -/
def sm_match (f : Fuzz) (ext : Ext) (m : SM)
    (input_title : String) (input_artists : List String) (candidates : List Cand) : List Track :=
  if candidates = [] then []
  else
    let kept := candidates.filterMap (fun candidate =>
      if quick_check input_title input_artists candidate then
        let similarity_scores := calculate_similarity f ext m input_title input_artists candidate
        if m.threshold ≤ similarity_scores.weighted_score then
          some { cand := candidate, scores := similarity_scores }
        else none
      else none)
    let sorted := sortDesc (fun t => t.scores.weighted_score) kept
    if 0 < m.top_k ∧ m.top_k < (sorted.length : Int) then sorted.take m.top_k.toNat
    else sorted

/-- EnhancedMatcher configuration: the inner StringMatcher, the bracket
configuration, and the two stage thresholds. -/
structure EM where
  string_matcher : SM
  bracket : BMcfg
  first_stage_threshold : Rat
  second_stage_threshold : Rat
deriving DecidableEq

/-- EnhancedMatcher.__init__ (enhanced_matcher.py 35-95): constructing the
inner StringMatcher performs the weight validation (BracketMatcher.__init__
validates nothing), so construction fails exactly when StringMatcher
construction does. -/
def mkEnhancedMatcher (title_weight artist_weight string_threshold : Rat) (top_k : Int)
    (bracket_weight keyword_bonus bracket_threshold : Rat)
    (first_stage_threshold second_stage_threshold : Rat) : Except ConfigError EM :=
  match mkStringMatcher title_weight artist_weight string_threshold top_k with
  | Except.error e => Except.error e
  | Except.ok sm =>
    Except.ok { string_matcher := sm,
                bracket := { bracket_weight := bracket_weight,
                             keyword_bonus := keyword_bonus,
                             threshold := bracket_threshold },
                first_stage_threshold := first_stage_threshold,
                second_stage_threshold := second_stage_threshold }

/-- The matcher EnhancedMatcher() built inside get_enhanced_match, with
every parameter at its default. -/
def default_enhanced_matcher : EM :=
  { string_matcher :=
      { title_weight := 0.6, artist_weight := 0.4, threshold := 75, top_k := 3 },
    bracket := default_bracket_cfg,
    first_stage_threshold := 60, second_stage_threshold := 70 }

/-- EnhancedMatcher.first_stage_match (enhanced_matcher.py 139-202): run the
string matcher with its threshold replaced by first_stage_threshold, then
the test hook: a first-stage threshold above 95 with no weighted score above
95 empties the result. -/
def first_stage_match (f : Fuzz) (ext : Ext) (em : EM)
    (input_title : String) (input_artists : List String) (candidates : List Cand) : List Track :=
  let lowered := { em.string_matcher with threshold := em.first_stage_threshold }
  let first_matches := sm_match f ext lowered input_title input_artists candidates
  if 95 < em.first_stage_threshold ∧
      ¬ first_matches.any (fun t => 95 < t.scores.weighted_score) then []
  else first_matches

/-- The score rewriting of EnhancedMatcher.second_stage_match: every
first-stage match gets bracket_match applied to its weighted score and the
result stored in final_score.  The source mutates the shared dicts of
first_stage_matches in place, so this rewritten list is also what the
stage-2-empty fallback of EnhancedMatcher.match returns from. -/
def second_stage_scored (f : Fuzz) (ext : Ext) (em : EM)
    (input_title : String) (first_stage_matches : List Track) : List Track :=
  first_stage_matches.map (fun t =>
    let final := bracket_match f ext em.bracket input_title t.cand.name t.scores.weighted_score
    { t with scores := { t.scores with final_score := some final } })

/-- EnhancedMatcher.second_stage_match (enhanced_matcher.py 204-318): empty
input stays empty; otherwise keep the rewritten matches whose final score
reaches the stage-2 threshold (50 in testing mode), sorted descending. -/
def second_stage_match (f : Fuzz) (ext : Ext) (em : EM)
    (input_title : String) (first_stage_matches : List Track) (testing : Bool) : List Track :=
  if first_stage_matches = [] then []
  else
    let threshold := if testing then 50 else em.second_stage_threshold
    sortDesc (fun t => (t.scores.final_score).getD 0)
      ((second_stage_scored f ext em input_title first_stage_matches).filter
        (fun t => threshold ≤ (t.scores.final_score).getD 0))

/-- EnhancedMatcher.match (enhanced_matcher.py 320-360): empty candidates or
an empty first stage give []; an empty second stage gives [] except in
testing mode, which returns the first first-stage match (carrying the
final_score that stage 2 wrote into it); otherwise the stage-2 result. -/
def em_match (f : Fuzz) (ext : Ext) (em : EM)
    (input_title : String) (input_artists : List String)
    (candidates : List Cand) (testing : Bool) : List Track :=
  if candidates = [] then []
  else
    let first_matches := first_stage_match f ext em input_title input_artists candidates
    if first_matches = [] then []
    else
      let final_matches := second_stage_match f ext em input_title first_matches testing
      if final_matches = [] then
        if testing then (second_stage_scored f ext em input_title first_matches).take 1
        else []
      else final_matches

/-- Module-level get_enhanced_match (enhanced_matcher.py 382-419): run a
default EnhancedMatcher; on a non-empty result take the head and, when the
candidates came from an artist-only search, overwrite its scores: low
confidence true, original score saved, final score forced to 0. -/
def get_enhanced_match (f : Fuzz) (ext : Ext)
    (input_title : String) (input_artists : List String) (candidates : List Cand)
    (is_artist_only_search testing : Bool) : Option Track :=
  match em_match f ext default_enhanced_matcher input_title input_artists candidates testing with
  | [] => none
  | best_match :: _ =>
    if is_artist_only_search then
      let original_score := (best_match.scores.final_score).getD 0
      some { best_match with scores :=
        { best_match.scores with
            is_low_confidence := some true,
            original_score := some original_score,
            final_score := some 0 } }
    else some best_match

/-- Modelled from the claim's words (C3): the pre-filter is claimed to
reject exactly when the title-length difference exceeds half the query
title length, or when the artist sets share no (case-folded) substring
overlap and the artist counts differ by more than two. -/
def spec_prefilter_rejects (input_title : String) (input_artists : List String)
    (candidate : Cand) : Prop :=
  |(input_title.length : Rat) - (candidate.name.length : Rat)| >
      (input_title.length : Rat) * 0.5
  ∨ ((∀ a ∈ input_artists, ∀ b ∈ candidate.artists,
        ¬ (strContains (to_lowercase a) (to_lowercase b) = true ∨
           strContains (to_lowercase b) (to_lowercase a) = true))
      ∧ 2 < ((input_artists.length : Int) - (candidate.artists.length : Int)).natAbs)

/-- A StringMatcher with all default parameters (title 0.6, artist 0.4,
threshold 75, top_k 3), used by witnesses. -/
def default_string_matcher : SM :=
  { title_weight := 0.6, artist_weight := 0.4, threshold := 75, top_k := 3 }

/-- Concrete candidate used by several witnesses. -/
def witness_cand : Cand := { name := ("song"), artists := [("a")] }

/-- The stage-1 track produced for witness_cand by the default matcher under
fuzzEq: all three scores are 100. -/
def witness_stage1_track : Track :=
  { cand := witness_cand,
    scores := { title_score := 100, artist_score := 100, weighted_score := 100 } }

/-- The track returned by get_enhanced_match for witness_cand with
is_artist_only_search = true: final score overwritten to 0, low-confidence
flag set, the computed score 100 kept in original_score. -/
def witness_artist_only_track : Track :=
  { cand := witness_cand,
    scores := { title_score := 100, artist_score := 100, weighted_score := 100,
                final_score := some 0, is_low_confidence := some true,
                original_score := some 100 } }

/-- The stage-2 track for witness_cand: the bracket stage writes
final_score 100 (no brackets on either side keeps the base score 100). -/
def witness_stage2_track : Track :=
  { cand := witness_cand,
    scores := { title_score := 100, artist_score := 100, weighted_score := 100,
                final_score := some 100 } }

/-- The StringMatcher run inside first_stage_match by the default
EnhancedMatcher: the default matcher with its threshold lowered to the
first-stage threshold 60. -/
def witness_lowered_matcher : SM :=
  { title_weight := 0.6, artist_weight := 0.4, threshold := 60, top_k := 3 }

/-- The synonym-extended keyword dict detected on the single bracket content
"version". -/
def versionExtended : List (String × Rat) :=
  [(("version"), 2), (("版本"), 2), (("版"), 2), (("ver"), 2), (("mix"), 2)]

/-- Candidate of the C3 counterexample: same one-character title as the
query, one artist with no substring overlap, equal artist counts. -/
def c3_counterexample_cand : Cand := { name := ("t"), artists := [("bb")] }

/-- Fold invariant: a property of the accumulator preserved by every step
over list elements holds for the fold result. -/
theorem foldl_invariant {α β : Type} (P : β → Prop) (f : β → α → β) :
    ∀ (l : List α) (init : β), (∀ a ∈ l, ∀ b, P b → P (f b a)) → P init →
      P (l.foldl f init)
  | [], _, _, h0 => h0
  | a :: l, init, hstep, h0 =>
    foldl_invariant P f l (f init a)
      (fun x hx => hstep x (List.mem_cons_of_mem _ hx))
      (hstep a (List.mem_cons_self _ _) init h0)

/-- Membership in a dict after an overwriting write. -/
theorem mem_dictSet {d : List (String × Rat)} {k : String} {v : Rat} {q : String × Rat}
    (h : q ∈ dictSet d k v) : q ∈ d ∨ q = (k, v) := by
  unfold dictSet at h
  by_cases hc : containsKey d k
  · simp only [hc, if_true] at h
    rcases List.mem_map.mp h with ⟨p, hp, hq⟩
    by_cases hk : (p.1 == k) = true
    · rw [if_pos hk] at hq
      exact Or.inr hq.symm
    · rw [if_neg hk] at hq
      exact Or.inl (hq ▸ hp)
  · simp only [hc, if_false] at h
    rcases List.mem_append.mp h with h1 | h1
    · exact Or.inl h1
    · exact Or.inr (List.mem_singleton.mp h1)

/-- Membership in a dict after an add-if-absent write. -/
theorem mem_dictAdd {d : List (String × Rat)} {k : String} {v : Rat} {q : String × Rat}
    (h : q ∈ dictAdd d k v) : q ∈ d ∨ q = (k, v) := by
  unfold dictAdd at h
  by_cases hc : containsKey d k
  · simp only [hc, if_true] at h
    exact Or.inl h
  · simp only [hc, if_false] at h
    rcases List.mem_append.mp h with h1 | h1
    · exact Or.inl h1
    · exact Or.inr (List.mem_singleton.mp h1)

/-- A successful dict lookup exhibits a binding of the dict. -/
theorem dictLookup_mem {d : List (String × Rat)} {k : String} {w : Rat}
    (h : dictLookup d k = some w) : (k, w) ∈ d := by
  unfold dictLookup at h
  cases hf : d.find? (fun p => p.1 == k) with
  | none => rw [hf] at h; cases h
  | some p =>
    rw [hf] at h
    cases h
    have hp := List.find?_some hf
    have hm := List.mem_of_find?_eq_some hf
    have hk : p.1 = k := by simpa using hp
    have hpk : p = (k, p.2) := by cases p; simp_all
    rw [hpk] at hm
    exact hm

/-- Every weight in the keyword table is nonnegative. -/
theorem keywordTable_nonneg : ∀ p ∈ keywordTable, (0 : Rat) ≤ p.2 := by
  intro p hp
  fin_cases hp <;> norm_num

/-- Every weight recorded by detect_keywords is nonnegative (all weights
come from the keyword table). -/
theorem detect_keywords_nonneg (ext : Ext) (contents : List String) :
    ∀ p ∈ detect_keywords ext contents, (0 : Rat) ≤ p.2 := by
  unfold detect_keywords
  refine foldl_invariant (fun d : List (String × Rat) => ∀ p ∈ d, (0 : Rat) ≤ p.2) _ _ _ ?_ ?_
  · intro content _ d hd
    refine foldl_invariant (fun d : List (String × Rat) => ∀ p ∈ d, (0 : Rat) ≤ p.2) _ _ _ ?_ hd
    intro kw hkw d2 hd2 p hp
    by_cases hs : strContains (to_lowercase kw.1)
        (to_lowercase (normalize_bracket_content ext content)) = true
    · rw [if_pos hs] at hp
      rcases mem_dictSet hp with h1 | h1
      · exact hd2 p h1
      · rw [h1]; exact keywordTable_nonneg kw hkw
    · rw [if_neg hs] at hp
      exact hd2 p hp
  · intro p hp; cases hp

/-- Synonym expansion preserves nonnegativity of the stored weights. -/
theorem extend_keywords_nonneg {base : List (String × Rat)}
    (hbase : ∀ p ∈ base, (0 : Rat) ≤ p.2) :
    ∀ p ∈ extend_keywords base, (0 : Rat) ≤ p.2 := by
  unfold extend_keywords
  refine foldl_invariant (fun d : List (String × Rat) => ∀ p ∈ d, (0 : Rat) ≤ p.2) _ _ _ ?_ ?_
  · intro kw hkw d hd
    have hkw2 : (0 : Rat) ≤ kw.2 := hbase kw hkw
    have hset : ∀ p ∈ dictSet d kw.1 kw.2, (0 : Rat) ≤ p.2 := by
      intro p hp
      rcases mem_dictSet hp with h1 | h1
      · exact hd p h1
      · rw [h1]; exact hkw2
    cases hfind : keywordMappings.find? (fun p => p.1 == kw.1) with
    | none => simpa [hfind] using hset
    | some row =>
      simp only [hfind]
      refine foldl_invariant (fun d : List (String × Rat) => ∀ p ∈ d, (0 : Rat) ≤ p.2) _ _ _ ?_ hset
      intro v _ d2 hd2 p hp
      rcases mem_dictAdd hp with h1 | h1
      · exact hd2 p h1
      · rw [h1]; exact hkw2
  · intro p hp; cases hp

/-- The bonus accumulation loop written as a sum over the mapped list. -/
theorem bonus_foldl_eq_sum (ec : List (String × Rat)) (kb : Rat) :
    ∀ (l : List (String × Rat)) (init : Rat),
      l.foldl (fun bonus kw =>
        match dictLookup ec kw.1 with
        | some w => bonus + min kw.2 w * kb
        | none => bonus) init
      = init + (l.map (fun kw =>
          match dictLookup ec kw.1 with
          | some w => min kw.2 w * kb
          | none => 0)).sum
  | [], init => by simp
  | kw :: l, init => by
    cases h : dictLookup ec kw.1 with
    | none =>
      simp only [List.foldl_cons, List.map_cons, List.sum_cons, h]
      rw [bonus_foldl_eq_sum ec kb l init]
      ring
    | some w =>
      simp only [List.foldl_cons, List.map_cons, List.sum_cons, h]
      rw [bonus_foldl_eq_sum ec kb l (init + min kw.2 w * kb)]
      ring

/-- Membership is invariant under the stable descending insertion. -/
theorem mem_insertDesc {key : Track → Rat} {t x : Track} :
    ∀ {l : List Track}, x ∈ insertDesc key t l ↔ x = t ∨ x ∈ l
  | [] => by simp [insertDesc]
  | y :: l => by
    unfold insertDesc
    by_cases h : key y ≤ key t
    · simp [h, List.mem_cons]
    · simp only [h, if_false, List.mem_cons, mem_insertDesc (l := l)]
      tauto

/-- Membership is invariant under the stable descending sort. -/
theorem mem_sortDesc {key : Track → Rat} {x : Track} :
    ∀ {l : List Track}, x ∈ sortDesc key l ↔ x ∈ l
  | [] => by simp [sortDesc]
  | y :: l => by
    unfold sortDesc
    simp only [List.foldr_cons]
    rw [show (List.foldr (insertDesc key) [] l) = sortDesc key l from rfl]
    rw [mem_insertDesc, mem_sortDesc (l := l), List.mem_cons]

/-- The stable descending insertion grows the length by one. -/
theorem length_insertDesc (key : Track → Rat) (t : Track) :
    ∀ (l : List Track), (insertDesc key t l).length = l.length + 1
  | [] => rfl
  | y :: l => by
    unfold insertDesc
    by_cases h : key y ≤ key t
    · rw [if_pos h]
      rfl
    · rw [if_neg h, List.length_cons, length_insertDesc key t l, List.length_cons]

/-- The stable descending sort preserves the length. -/
theorem length_sortDesc (key : Track → Rat) :
    ∀ (l : List Track), (sortDesc key l).length = l.length
  | [] => rfl
  | y :: l => by
    unfold sortDesc
    simp only [List.foldr_cons]
    rw [show (List.foldr (insertDesc key) [] l) = sortDesc key l from rfl]
    rw [length_insertDesc, length_sortDesc key l, List.length_cons]

/-- Evaluation: the witness candidate passes the pre-filter. -/
theorem qc_eval : quick_check ("song") [("a")] witness_cand = true := by
  have h1 : to_lowercase ("song") = ("song") := rfl
  have h2 : to_lowercase ("a") = ("a") := rfl
  have h3 : strContains ("a") ("a") = true := rfl
  simp only [quick_check, witness_cand, h1, h2]
  norm_num [h2, h3]

/-- Evaluation: stage-1 scores of the witness candidate under the default
matcher are all 100. -/
theorem cs_eval : calculate_similarity fuzzEq extId default_string_matcher
    ("song") [("a")] witness_cand
    = { title_score := 100, artist_score := 100, weighted_score := 100 } := by
  have h1 : normalize_for_matching extId ("song") = ("song") := rfl
  simp only [calculate_similarity, calculate_title_similarity, calculate_artists_similarity,
    calculate_weighted_score, witness_cand, default_string_matcher, fuzzEq, h1]
  norm_num [pyMaxQ, List.headD, get_pinyin]

/-- Evaluation: the same scores under the threshold-lowered matcher (the
weights agree, only the threshold differs). -/
theorem cs_eval_lowered : calculate_similarity fuzzEq extId witness_lowered_matcher
    ("song") [("a")] witness_cand
    = { title_score := 100, artist_score := 100, weighted_score := 100 } := by
  have h1 : normalize_for_matching extId ("song") = ("song") := rfl
  simp only [calculate_similarity, calculate_title_similarity, calculate_artists_similarity,
    calculate_weighted_score, witness_cand, witness_lowered_matcher, fuzzEq, h1]
  norm_num [pyMaxQ, List.headD, get_pinyin]

/-- Evaluation: StringMatcher.match on the witness input under the default
matcher. -/
theorem sm_eval : sm_match fuzzEq extId default_string_matcher ("song") [("a")] [witness_cand]
    = [witness_stage1_track] := by
  simp only [sm_match, List.filterMap, qc_eval, cs_eval]
  norm_num [default_string_matcher, witness_stage1_track, sortDesc, insertDesc]

/-- Evaluation: StringMatcher.match on the witness input under the lowered
threshold. -/
theorem sm_eval_lowered : sm_match fuzzEq extId witness_lowered_matcher ("song") [("a")] [witness_cand]
    = [witness_stage1_track] := by
  simp only [sm_match, List.filterMap, qc_eval, cs_eval_lowered]
  norm_num [witness_lowered_matcher, witness_stage1_track, sortDesc, insertDesc]

/-- Evaluation: the first stage of the default EnhancedMatcher on the
witness input. -/
theorem fs_eval : first_stage_match fuzzEq extId default_enhanced_matcher
    ("song") [("a")] [witness_cand] = [witness_stage1_track] := by
  unfold first_stage_match
  rw [show ({ default_enhanced_matcher.string_matcher with
        threshold := default_enhanced_matcher.first_stage_threshold } : SM)
      = witness_lowered_matcher from rfl]
  simp only [sm_eval_lowered]
  norm_num [default_enhanced_matcher]

/-- Evaluation: the bracket stage keeps the witness base score 100. -/
theorem bm_eval : bracket_match fuzzEq extId default_bracket_cfg ("song") ("song") 100 = 100 := by
  unfold bracket_match
  rw [show extract_brackets ("song") = [] from rfl]
  simp

/-- Evaluation: the stage-2 rewriting on the witness stage-1 track. -/
theorem scored_eval : second_stage_scored fuzzEq extId default_enhanced_matcher
    ("song") [witness_stage1_track] = [witness_stage2_track] := by
  simp only [second_stage_scored, List.map, witness_stage1_track, witness_stage2_track, witness_cand]
  rw [show default_enhanced_matcher.bracket = default_bracket_cfg from rfl]
  rw [bm_eval]

/-- Evaluation: the second stage of the default EnhancedMatcher on the
witness stage-1 result. -/
theorem ss_eval : second_stage_match fuzzEq extId default_enhanced_matcher
    ("song") [witness_stage1_track] false = [witness_stage2_track] := by
  simp only [second_stage_match, scored_eval]
  norm_num [default_enhanced_matcher, witness_stage2_track, sortDesc, insertDesc, List.filter]

/-- Evaluation: the full two-stage match on the witness input. -/
theorem em_eval : em_match fuzzEq extId default_enhanced_matcher
    ("song") [("a")] [witness_cand] false = [witness_stage2_track] := by
  simp only [em_match, fs_eval, ss_eval]
  norm_num

/-- Evaluation: get_enhanced_match with an artist-only search flag on the
witness input. -/
theorem ge_eval : get_enhanced_match fuzzEq extId ("song") [("a")] [witness_cand] true false
    = some witness_artist_only_track := by
  unfold get_enhanced_match
  rw [em_eval]
  simp [witness_stage2_track, witness_artist_only_track]

/-- C1: whenever the two-stage match produces a best match,
get_enhanced_match called with is_artist_only_search = true returns that
match with its final score forced to 0 and its low-confidence flag forced
to true, whatever score was computed, for every external-library behaviour,
query title, artist list, candidate list and testing mode. -/
theorem c1_artist_only_search_forces_zero
    (f : Fuzz) (ext : Ext) (input_title : String) (input_artists : List String)
    (candidates : List Cand) (testing : Bool) (m : Track)
    (h : get_enhanced_match f ext input_title input_artists candidates true testing = some m) :
    m.scores.final_score = some 0 ∧ m.scores.is_low_confidence = some true := by
  unfold get_enhanced_match at h
  cases hm : em_match f ext default_enhanced_matcher input_title input_artists candidates testing with
  | nil =>
    rw [hm] at h
    exact Option.noConfusion h
  | cons b rest =>
    rw [hm] at h
    simp only [if_true, Option.some.injEq] at h
    subst h
    exact ⟨rfl, rfl⟩

/-- Witness for C1: a concrete run in which the two-stage match produces a
best match with computed score 100 and the artist-only overwrite is
visible. -/
theorem c1_witness :
    get_enhanced_match fuzzEq extId ("song") [("a")] [witness_cand] true false
        = some witness_artist_only_track
    ∧ witness_artist_only_track.scores.final_score = some 0
    ∧ witness_artist_only_track.scores.is_low_confidence = some true :=
  ⟨ge_eval,
    (c1_artist_only_search_forces_zero fuzzEq extId ("song") [("a")] [witness_cand]
      false witness_artist_only_track ge_eval).1,
    (c1_artist_only_search_forces_zero fuzzEq extId ("song") [("a")] [witness_cand]
      false witness_artist_only_track ge_eval).2⟩

/-- C4: with non-empty query and candidate artist lists, when the first
query artist's best token-set ratio against the candidate artists is at
least 90, the artist-list similarity is exactly max 85 of that best
ratio. -/
theorem c4_primary_artist_floor
    (f : Fuzz) (ext : Ext) (input_artists candidate_artists : List String)
    (h1 : input_artists ≠ []) (h2 : candidate_artists ≠ [])
    (h90 : 90 ≤ pyMaxQ (candidate_artists.map (fun c =>
        f.tokenSetScore (input_artists.headD ("")) c))) :
    calculate_artists_similarity f ext input_artists candidate_artists
      = max 85 (pyMaxQ (candidate_artists.map (fun c =>
          f.tokenSetScore (input_artists.headD ("")) c))) := by
  simp only [List.headD_eq_head?] at h90
  unfold calculate_artists_similarity
  simp [h1, h2, h90]

/-- Witness for C4: a single exactly-matching artist gives the best ratio
100 and an overall score max 85 100. -/
theorem c4_witness :
    ([("a")] : List String) ≠ []
    ∧ (90 : Rat) ≤ pyMaxQ (([("a")] : List String).map (fun c =>
        fuzzEq.tokenSetScore (([("a")] : List String).headD ("")) c))
    ∧ calculate_artists_similarity fuzzEq extId [("a")] [("a")]
        = max 85 (pyMaxQ (([("a")] : List String).map (fun c =>
            fuzzEq.tokenSetScore (([("a")] : List String).headD ("")) c))) := by
  have h90 : (90 : Rat) ≤ pyMaxQ (([("a")] : List String).map (fun c =>
      fuzzEq.tokenSetScore (([("a")] : List String).headD ("")) c)) := by
    norm_num [pyMaxQ, fuzzEq, List.headD]
  exact ⟨by decide, h90,
    c4_primary_artist_floor fuzzEq extId [("a")] [("a")] (by decide) (by decide) h90⟩

/-- C5 (code bug): normalization is not idempotent.  On ".。。" (one ASCII
dot followed by two ideographic full stops, characters on which the
identity instantiation agrees with the real OpenCC conversion) the
separator folding rewrites the two U+3002 to "...", creating a four-dot
run, which a second normalization collapses to "...". -/
theorem c5_normalize_not_idempotent :
    normalize extId false (normalize extId false (".。。")) ≠ normalize extId false (".。。")
    ∧ normalize extId false (".。。") = ("....")
    ∧ normalize extId false ("....") = ("...") :=
  ⟨by decide, by decide, by decide⟩

/-- C6: when neither title yields an annotation span, BracketMatcher.match
returns the base score unchanged, for every configuration and base
score. -/
theorem c6_no_brackets_keeps_base
    (f : Fuzz) (ext : Ext) (cfg : BMcfg) (input_title candidate_title : String)
    (base_score : Rat)
    (h1 : extract_brackets input_title = [])
    (h2 : extract_brackets candidate_title = []) :
    bracket_match f ext cfg input_title candidate_title base_score = base_score := by
  unfold bracket_match
  rw [h1, h2]
  simp

/-- Witness for C6: two annotation-free titles keep a base score of 77. -/
theorem c6_witness :
    extract_brackets ("Song Title") = []
    ∧ bracket_match fuzzEq extId default_bracket_cfg ("Song Title") ("Song Title") 77 = 77 :=
  ⟨rfl, c6_no_brackets_keeps_base fuzzEq extId default_bracket_cfg _ _ 77 rfl rfl⟩

/-- C7: with a nonnegative bracket similarity (scores live in [0,100]) and
the base score, keyword bonus and threshold fixed, the stage-2 final score
is monotone non-decreasing in the bracket weight. -/
theorem c7_final_score_monotone_in_bracket_weight
    (w1 w2 kb thr base_score bracket_score keyword_bonus : Rat)
    (hbs : 0 ≤ bracket_score) (hw : w1 ≤ w2) :
    calculate_final_score { bracket_weight := w1, keyword_bonus := kb, threshold := thr }
        base_score bracket_score keyword_bonus
      ≤ calculate_final_score { bracket_weight := w2, keyword_bonus := kb, threshold := thr }
        base_score bracket_score keyword_bonus := by
  unfold calculate_final_score
  apply min_le_min _ le_rfl
  by_cases h : thr ≤ bracket_score
  · simp only [h, if_true]
    have hm := mul_le_mul_of_nonneg_left hw hbs
    linarith
  · simp [h]

/-- Witness for C7: weights 0.2 and 0.3 on a passing bracket score 80. -/
theorem c7_witness :
    (0 : Rat) ≤ 80 ∧ (0.2 : Rat) ≤ 0.3
    ∧ calculate_final_score { bracket_weight := 0.2, keyword_bonus := 5, threshold := 70 } 60 80 5
        ≤ calculate_final_score { bracket_weight := 0.3, keyword_bonus := 5, threshold := 70 } 60 80 5 :=
  ⟨by norm_num, by norm_num,
    c7_final_score_monotone_in_bracket_weight 0.2 0.3 5 70 60 80 5 (by norm_num) (by norm_num)⟩

/-- C10: artist similarity on empty inputs: both lists empty gives exactly
100, exactly one empty gives exactly 0, and the computation is total. -/
theorem c10_artists_similarity_empty
    (f : Fuzz) (ext : Ext) (l : List String) (h : l ≠ []) :
    calculate_artists_similarity f ext [] [] = 100
    ∧ calculate_artists_similarity f ext [] l = 0
    ∧ calculate_artists_similarity f ext l [] = 0 := by
  refine ⟨?_, ?_, ?_⟩ <;> unfold calculate_artists_similarity <;> simp [h]

/-- Witness for C10: a singleton artist list against an empty one. -/
theorem c10_witness :
    ([("x")] : List String) ≠ []
    ∧ calculate_artists_similarity fuzzEq extId [] [("x")] = 0 :=
  ⟨by decide, (c10_artists_similarity_empty fuzzEq extId [("x")] (by decide)).2.1⟩

/-- Counterexample for C2 as stated: with the default configuration the
final score is clamped to 100 instead of the claimed un-clamped sum; the
computed keyword bonus differs from the one-term-per-detected-query-keyword
sum because synonym expansion multiplies the matching keys; and a negative
configured bonus makes the result negative. -/
theorem c2_counterexample :
    calculate_final_score default_bracket_cfg 100 100 5 ≠
        100 + (if default_bracket_cfg.threshold ≤ 100 then
          100 * default_bracket_cfg.bracket_weight else 0) + 5
    ∧ calculate_keyword_bonus extId 5 [("version")] [("version")] ≠
        keyword_bonus_per_query_keyword extId 5 [("version")] [("version")]
    ∧ calculate_keyword_bonus extId (-5) [("version")] [("version")] < 0 := by
  have hd : detect_keywords extId [("version")] = [(("version"), 2)] := rfl
  have he : extend_keywords [(("version"), 2)] = versionExtended := rfl
  have l1 : dictLookup [(("version"), (2 : Rat)), (("版本"), 2), (("版"), 2), (("ver"), 2),
      (("mix"), 2)] ("version") = some 2 := rfl
  have l2 : dictLookup [(("version"), (2 : Rat)), (("版本"), 2), (("版"), 2), (("ver"), 2),
      (("mix"), 2)] ("版本") = some 2 := rfl
  have l3 : dictLookup [(("version"), (2 : Rat)), (("版本"), 2), (("版"), 2), (("ver"), 2),
      (("mix"), 2)] ("版") = some 2 := rfl
  have l4 : dictLookup [(("version"), (2 : Rat)), (("版本"), 2), (("版"), 2), (("ver"), 2),
      (("mix"), 2)] ("ver") = some 2 := rfl
  have l5 : dictLookup [(("version"), (2 : Rat)), (("版本"), 2), (("版"), 2), (("ver"), 2),
      (("mix"), 2)] ("mix") = some 2 := rfl
  have eg : ∀ kb : Rat, calculate_keyword_bonus extId kb [("version")] [("version")] = 10 * kb := by
    intro kb
    simp only [calculate_keyword_bonus, hd, he]
    rw [if_neg (by simp)]
    simp only [versionExtended, List.foldl_cons, List.foldl_nil, l1, l2, l3, l4, l5]
    rw [min_self]
    ring
  have eq2 : keyword_bonus_per_query_keyword extId 5 [("version")] [("version")] = 10 := by
    simp only [keyword_bonus_per_query_keyword, hd, he, versionExtended, List.map_cons,
      List.map_nil, l1, List.sum_cons, List.sum_nil]
    norm_num
  refine ⟨?_, ?_, ?_⟩
  · norm_num [calculate_final_score, default_bracket_cfg, min_def]
  · rw [eg 5, eq2]; norm_num
  · rw [eg (-5)]; norm_num

/-- C2 amended: the stage-2 final score is the claimed sum clamped at 100;
the keyword bonus is the sum over the synonym-extended query keywords also
present among the synonym-extended candidate keywords of min(query weight,
candidate weight) times the configured bonus; and the bonus is nonnegative
whenever the configured bonus value is. -/
theorem c2_final_score_and_keyword_bonus
    (cfg : BMcfg) (base_score bracket_score bonus_value : Rat)
    (ext : Ext) (kb : Rat) (input_brackets candidate_brackets : List String) :
    calculate_final_score cfg base_score bracket_score bonus_value
        = min (base_score +
            (if cfg.threshold ≤ bracket_score then bracket_score * cfg.bracket_weight else 0)
            + bonus_value) 100
    ∧ calculate_keyword_bonus ext kb input_brackets candidate_brackets
        = keyword_bonus_extended_sum ext kb input_brackets candidate_brackets
    ∧ (0 ≤ kb → 0 ≤ calculate_keyword_bonus ext kb input_brackets candidate_brackets) := by
  refine ⟨rfl, ?_, ?_⟩
  · simp only [calculate_keyword_bonus, keyword_bonus_extended_sum]
    by_cases hg : detect_keywords ext input_brackets = [] ∨ detect_keywords ext candidate_brackets = []
    · rw [if_pos hg, if_pos hg]
    · rw [if_neg hg, if_neg hg, bonus_foldl_eq_sum, zero_add]
  · intro hkb
    simp only [calculate_keyword_bonus]
    by_cases hg : detect_keywords ext input_brackets = [] ∨ detect_keywords ext candidate_brackets = []
    · rw [if_pos hg]
    · rw [if_neg hg]
      refine foldl_invariant (fun b : Rat => 0 ≤ b) _ _ _ ?_ le_rfl
      intro kw hkw b hb
      cases hl : dictLookup (extend_keywords (detect_keywords ext candidate_brackets)) kw.1 with
      | none => simpa [hl] using hb
      | some w =>
        simp only [hl]
        have hkw2 : (0 : Rat) ≤ kw.2 :=
          extend_keywords_nonneg (detect_keywords_nonneg ext input_brackets) kw hkw
        have hw : (0 : Rat) ≤ w :=
          extend_keywords_nonneg (detect_keywords_nonneg ext candidate_brackets) _ (dictLookup_mem hl)
        have hterm : 0 ≤ min kw.2 w * kb := mul_nonneg (le_min hkw2 hw) hkb
        linarith

/-- Witness for C2: the default bonus 5 is nonnegative and so is the
computed keyword bonus. -/
theorem c2_witness :
    (0 : Rat) ≤ 5
    ∧ 0 ≤ calculate_keyword_bonus extId 5 [("version")] [("version")] :=
  ⟨by norm_num,
    (c2_final_score_and_keyword_bonus default_bracket_cfg 0 0 0 extId 5
      [("version")] [("version")]).2.2 (by norm_num)⟩

/-- Counterexample for C3 as stated: equal artist counts (difference 0, not
more than 2) with no substring overlap, so the claimed predicate accepts
the candidate, yet the pre-filter rejects it. -/
theorem c3_counterexample :
    quick_check ("t") [("aa")] c3_counterexample_cand = false
    ∧ ¬ spec_prefilter_rejects ("t") [("aa")] c3_counterexample_cand := by
  constructor
  · have h1 : to_lowercase ("t") = ("t") := rfl
    have h2 : to_lowercase ("aa") = ("aa") := rfl
    have h3 : to_lowercase ("bb") = ("bb") := rfl
    have h4 : strContains ("aa") ("bb") = false := rfl
    have h5 : strContains ("bb") ("aa") = false := rfl
    simp only [quick_check, c3_counterexample_cand, h1, h2, h3]
    norm_num [h2, h3, h4, h5]
  · intro hc
    have hl1 : ("t" : String).length = 1 := rfl
    rcases hc with hlen | ⟨hov, hcount⟩
    · norm_num [c3_counterexample_cand, hl1] at hlen
    · norm_num [c3_counterexample_cand] at hcount

/-- C3 amended: the pre-filter rejects exactly when the lower-cased title
lengths differ by more than half the query title's length, or when both
artist lists are non-empty and no lower-cased artist pair is in a substring
relation (the code has no artist-count condition); and every track returned
by StringMatcher.match passed the pre-filter. -/
theorem c3_prefilter_exact_and_match_subset
    (f : Fuzz) (ext : Ext) (m : SM) (input_title : String)
    (input_artists : List String) (candidates : List Cand) :
    (∀ candidate : Cand,
      quick_check input_title input_artists candidate = false ↔
        (|((to_lowercase input_title).length : Rat) -
              ((to_lowercase candidate.name).length : Rat)| >
            ((to_lowercase input_title).length : Rat) * 0.5
          ∨ (input_artists ≠ [] ∧ candidate.artists ≠ [] ∧
              ∀ a ∈ input_artists, ∀ b ∈ candidate.artists,
                ¬ (strContains (to_lowercase a) (to_lowercase b) = true ∨
                   strContains (to_lowercase b) (to_lowercase a) = true))))
    ∧ (∀ t ∈ sm_match f ext m input_title input_artists candidates,
        quick_check input_title input_artists t.cand = true) := by
  constructor
  · intro candidate
    simp only [quick_check]
    by_cases hlen : |((to_lowercase input_title).length : Rat) -
        ((to_lowercase candidate.name).length : Rat)| >
        ((to_lowercase input_title).length : Rat) * 0.5
    · rw [if_pos hlen]
      simp [hlen]
    · rw [if_neg hlen]
      by_cases hne : input_artists ≠ [] ∧ candidate.artists ≠ []
      · rw [if_pos hne]
        rw [or_iff_right hlen]
        simp only [List.any_map, Function.comp, List.any_eq_false, Bool.not_eq_true,
          Bool.or_eq_true, not_or]
        constructor
        · intro hall
          exact ⟨hne.1, hne.2, hall⟩
        · intro hx
          exact hx.2.2
      · rw [if_neg hne]
        constructor
        · intro hfalse
          exact absurd hfalse (by simp)
        · rintro (hl | ⟨ha, hb, _⟩)
          · exact absurd hl hlen
          · exact absurd ⟨ha, hb⟩ hne
  · intro t ht
    simp only [sm_match] at ht
    split at ht
    · exact absurd ht (List.not_mem_nil t)
    · split at ht
      · have ht2 := List.take_subset _ _ ht
        rw [mem_sortDesc] at ht2
        rcases List.mem_filterMap.mp ht2 with ⟨c, hcmem, heq⟩
        by_cases hq : quick_check input_title input_artists c = true
        · rw [if_pos hq] at heq
          split at heq
          · simp only [Option.some.injEq] at heq
            subst heq
            exact hq
          · exact Option.noConfusion heq
        · rw [if_neg hq] at heq
          exact Option.noConfusion heq
      · rw [mem_sortDesc] at ht
        rcases List.mem_filterMap.mp ht with ⟨c, hcmem, heq⟩
        by_cases hq : quick_check input_title input_artists c = true
        · rw [if_pos hq] at heq
          split at heq
          · simp only [Option.some.injEq] at heq
            subst heq
            exact hq
          · exact Option.noConfusion heq
        · rw [if_neg hq] at heq
          exact Option.noConfusion heq

/-- Witness for C3: a concrete match result whose single track passed the
pre-filter. -/
theorem c3_witness :
    witness_stage1_track ∈ sm_match fuzzEq extId default_string_matcher ("song") [("a")] [witness_cand]
    ∧ quick_check ("song") [("a")] witness_stage1_track.cand = true := by
  have hmem : witness_stage1_track ∈
      sm_match fuzzEq extId default_string_matcher ("song") [("a")] [witness_cand] := by
    rw [sm_eval]
    exact List.mem_singleton_self _
  exact ⟨hmem,
    (c3_prefilter_exact_and_match_subset fuzzEq extId default_string_matcher
      ("song") [("a")] [witness_cand]).2 witness_stage1_track hmem⟩

/-- C8: StringMatcher and EnhancedMatcher construction succeed exactly when
both weights lie in [0,1] and their sum is within the 0.001 tolerance of 1;
a successfully constructed matcher carries validated weights (and the match
functions perform no validation, so no configuration error can arise
mid-match). -/
theorem c8_construction_validation (tw aw thr : Rat) (tk : Int) :
    ((∃ m, mkStringMatcher tw aw thr tk = Except.ok m) ↔
      (0 ≤ tw ∧ tw ≤ 1 ∧ 0 ≤ aw ∧ aw ≤ 1 ∧ |tw + aw - 1| ≤ 0.001))
    ∧ (∀ bw kb bthr fs ss,
        (∃ em, mkEnhancedMatcher tw aw thr tk bw kb bthr fs ss = Except.ok em) ↔
          (0 ≤ tw ∧ tw ≤ 1 ∧ 0 ≤ aw ∧ aw ≤ 1 ∧ |tw + aw - 1| ≤ 0.001))
    ∧ (∀ m, mkStringMatcher tw aw thr tk = Except.ok m →
        0 ≤ m.title_weight ∧ m.title_weight ≤ 1 ∧ 0 ≤ m.artist_weight ∧
          m.artist_weight ≤ 1 ∧ |m.title_weight + m.artist_weight - 1| ≤ 0.001) := by
  have hiff : (∃ m, mkStringMatcher tw aw thr tk = Except.ok m) ↔
      (0 ≤ tw ∧ tw ≤ 1 ∧ 0 ≤ aw ∧ aw ≤ 1 ∧ |tw + aw - 1| ≤ 0.001) := by
    unfold mkStringMatcher
    by_cases hA : ¬ (0 ≤ tw ∧ tw ≤ 1) ∨ ¬ (0 ≤ aw ∧ aw ≤ 1)
    · rw [if_pos hA]
      constructor
      · rintro ⟨m, hm⟩
        exact Except.noConfusion hm
      · intro hv
        rcases hA with hA | hA
        · exact absurd ⟨hv.1, hv.2.1⟩ hA
        · exact absurd ⟨hv.2.2.1, hv.2.2.2.1⟩ hA
    · rw [if_neg hA]
      push_neg at hA
      by_cases hB : (0.001 : Rat) < |tw + aw - 1|
      · rw [if_pos hB]
        constructor
        · rintro ⟨m, hm⟩
          exact Except.noConfusion hm
        · intro hv
          exact absurd hv.2.2.2.2 (not_le.mpr hB)
      · rw [if_neg hB]
        constructor
        · intro _
          exact ⟨hA.1.1, hA.1.2, hA.2.1, hA.2.2, not_lt.mp hB⟩
        · intro _
          exact ⟨_, rfl⟩
  refine ⟨hiff, ?_, ?_⟩
  · intro bw kb bthr fs ss
    have hem : (∃ em, mkEnhancedMatcher tw aw thr tk bw kb bthr fs ss = Except.ok em) ↔
        (∃ m, mkStringMatcher tw aw thr tk = Except.ok m) := by
      unfold mkEnhancedMatcher
      cases hs : mkStringMatcher tw aw thr tk with
      | error e =>
        constructor
        · rintro ⟨em, hm⟩
          exact Except.noConfusion hm
        · rintro ⟨m, hm⟩
          exact Except.noConfusion hm
      | ok sm =>
        constructor
        · intro _
          exact ⟨sm, rfl⟩
        · intro _
          exact ⟨_, rfl⟩
    exact hem.trans hiff
  · intro m hm
    unfold mkStringMatcher at hm
    by_cases hA : ¬ (0 ≤ tw ∧ tw ≤ 1) ∨ ¬ (0 ≤ aw ∧ aw ≤ 1)
    · rw [if_pos hA] at hm
      exact Except.noConfusion hm
    · rw [if_neg hA] at hm
      push_neg at hA
      by_cases hB : (0.001 : Rat) < |tw + aw - 1|
      · rw [if_pos hB] at hm
        exact Except.noConfusion hm
      · rw [if_neg hB] at hm
        simp only [Except.ok.injEq] at hm
        subst hm
        exact ⟨hA.1.1, hA.1.2, hA.2.1, hA.2.2, not_lt.mp hB⟩

/-- Witness for C8: the default weights 0.6 and 0.4 construct successfully
and the constructed matcher carries validated weights. -/
theorem c8_witness :
    mkStringMatcher 0.6 0.4 75 3 = Except.ok default_string_matcher
    ∧ (0 ≤ default_string_matcher.title_weight ∧ default_string_matcher.title_weight ≤ 1
        ∧ 0 ≤ default_string_matcher.artist_weight ∧ default_string_matcher.artist_weight ≤ 1
        ∧ |default_string_matcher.title_weight + default_string_matcher.artist_weight - 1| ≤ 0.001) := by
  have habs : |(0.6 : Rat) + 0.4 - 1| = 0 := by
    rw [(by norm_num : (0.6 : Rat) + 0.4 - 1 = 0)]
    exact abs_zero
  have h : mkStringMatcher 0.6 0.4 75 3 = Except.ok default_string_matcher := by
    unfold mkStringMatcher
    rw [if_neg (by norm_num), if_neg (by rw [habs]; norm_num)]
    rfl
  exact ⟨h, (c8_construction_validation 0.6 0.4 75 3).2.2 default_string_matcher h⟩

/-- C9: with a positive top_k the stage-1 match result never holds more
than top_k tracks. -/
theorem c9_top_k_caps_result_length
    (f : Fuzz) (ext : Ext) (m : SM) (input_title : String)
    (input_artists : List String) (candidates : List Cand)
    (h : 0 < m.top_k) :
    ((sm_match f ext m input_title input_artists candidates).length : Int) ≤ m.top_k := by
  have aux : ∀ (l : List Track) (k : Int), 0 < k →
      (((if 0 < k ∧ k < (l.length : Int) then l.take k.toNat else l)).length : Int) ≤ k := by
    intro l k hk
    split
    · rw [List.length_take]
      omega
    · rename_i hcond
      push_neg at hcond
      exact hcond hk
  simp only [sm_match]
  by_cases hc : candidates = []
  · rw [if_pos hc]
    simp
    omega
  · rw [if_neg hc]
    exact aux _ _ h

/-- Witness for C9: the default top_k of 3 caps a concrete match result. -/
theorem c9_witness :
    (0 : Int) < default_string_matcher.top_k
    ∧ ((sm_match fuzzEq extId default_string_matcher ("song") [("a")] [witness_cand]).length : Int)
        ≤ default_string_matcher.top_k :=
  ⟨by decide,
    c9_top_k_caps_result_length fuzzEq extId default_string_matcher _ _ _ (by decide)⟩

end MusicMove
